import Mathlib

/-!
Verification of the validation and target-resolution core of a declarative
Helm-release orchestrator (`internal/app/state.go`).

The Go code is shallowly embedded:
* Go maps become association lists `List (String × α)` with first-match
  lookup (`getMap`) and replace-or-append update (`setMap`); Go map keys are
  unique, so first-match semantics coincide with Go's.  Go map iteration
  order is unspecified; the embedding fixes list order, a deterministic
  refinement.
* The `Apps` map is `Option (List (String × release))` because `validate`
  distinguishes a `nil` map (`s.Apps == nil`) from an empty one.
* External library calls (`url.ParseRequestURI`, `os.Stat`) and external
  collaborator functions (`getKubeContext`, `validateHooks`, the
  per-release validator, the `--ns-override` flag) are oracle parameters
  collected in the `Externals` structure, or passed directly where the Go
  function calls them directly.
* `os.Exit(0)` on the "no apps" path is modelled as the distinguished
  result `VResult.noop`; `os.Setenv` side effects are outside the document
  state and are not modelled (the claims under study are about document
  fields).
* The concurrent chart validator is modelled functionally: the bounded
  worker pool and result channel only affect scheduling, not which probes
  run or how results aggregate, so the embedding collects every probe
  result in a deterministic order.
-/

set_option maxHeartbeats 1000000

/-- First-match lookup in an association list, the embedding of a Go map
read `v, ok := m[k]` (`none` for `ok = false`). -/
def getMap {α : Type} : List (String × α) → String → Option α
  | [], _ => none
  | (k', v) :: rest, k => if k' = k then some v else getMap rest k

/-- Replace-or-append update of an association list, the embedding of a Go
map write `m[k] = v`. -/
def setMap {α : Type} : List (String × α) → String → α → List (String × α)
  | [], k, v => [(k, v)]
  | (k', v') :: rest, k, v =>
    if k' = k then (k', v) :: rest else (k', v') :: setMap rest k v

/-- Embedding of the Go `config` struct (the `settings` stanza).  Hook
payloads are `interface{}` in Go and opaque to this core; they are modelled
as strings. -/
structure config where
  KubeContext : String
  Username : String
  Password : String
  ClusterURI : String
  ServiceAccount : String
  StorageBackend : String
  SlackWebhook : String
  ReverseDelete : Bool
  BearerToken : Bool
  BearerTokenPath : String
  EyamlEnabled : Bool
  EyamlPrivateKeyPath : String
  EyamlPublicKeyPath : String
  GlobalHooks : List (String × String)
  GlobalMaxHistory : Int
deriving DecidableEq, Repr

/-- The zero value `config{}` that `validate` compares `s.Settings` against
with `reflect.DeepEqual`. -/
def emptyConfig : config :=
  { KubeContext := "", Username := "", Password := "", ClusterURI := ""
    ServiceAccount := "", StorageBackend := "", SlackWebhook := ""
    ReverseDelete := false, BearerToken := false, BearerTokenPath := ""
    EyamlEnabled := false, EyamlPrivateKeyPath := "", EyamlPublicKeyPath := ""
    GlobalHooks := [], GlobalMaxHistory := 0 }

/-- Modelled from the spec: the `namespace` struct lives outside the given
source file; per the spec a namespace "carries at minimum an
enabled/disabled flag". -/
structure Namespace where
  Enabled : Bool
deriving DecidableEq, Repr

/-- Modelled from the spec: the external `namespace.Disable()` method
clears the enabled flag. -/
def Namespace.Disable (n : Namespace) : Namespace := { n with Enabled := false }

/-- Modelled from the spec: the `release` struct lives outside the given
source file; per the spec a release carries a name, target namespace, group
label, chart identity (name + version), an enabled/disabled flag and
per-release hook/history overrides (zero value = inherit global). -/
structure release where
  Name : String
  Namespace : String
  Group : String
  Chart : String
  Version : String
  Enabled : Bool
  Hooks : List (String × String)
  MaxHistory : Int
deriving DecidableEq, Repr

/-- Modelled from the spec: the external `release.Disable()` method clears
the enabled flag. -/
def release.Disable (r : release) : release := { r with Enabled := false }

/-- Modelled from the spec: a release is "considered to run" when it is
currently enabled. -/
def release.isConsideredToRun (r : release) : Bool := r.Enabled

/-- Embedding of the Go `state` struct (the desired-state document).
`Apps` is optional to keep the `nil` / empty-map distinction that
`validate` tests. -/
structure state where
  Metadata : List (String × String)
  Certificates : List (String × String)
  Settings : config
  Context : String
  Namespaces : List (String × Namespace)
  HelmRepos : List (String × String)
  PreconfiguredHelmRepos : List String
  Apps : Option (List (String × release))
  AppsTemplates : Option (List (String × release))
  TargetMap : List (String × Bool)
deriving DecidableEq, Repr

/-- A document with every field at its zero value, used to build concrete
test documents. -/
def emptyState : state :=
  { Metadata := [], Certificates := [], Settings := emptyConfig, Context := ""
    Namespaces := [], HelmRepos := [], PreconfiguredHelmRepos := []
    Apps := none, AppsTemplates := none, TargetMap := [] }

/-- Modelled from the spec: the fixed default context name constant (it is
declared outside the given source file; only its being a fixed constant
matters to the claims). -/
def defaultContextName : String := "default"

/-- Modelled from the spec: the external `release.inheritHooks(s)` fills
the release's hooks from the global settings value only if the release's
own field is unset/zero. -/
def release.inheritHooks (r : release) (s : state) : release :=
  if r.Hooks = [] then { r with Hooks := s.Settings.GlobalHooks } else r

/-- Modelled from the spec: the external `release.inheritMaxHistory(s)`
fills the release's history limit from the global settings value only if
the release's own field is unset/zero. -/
def release.inheritMaxHistory (r : release) (s : state) : release :=
  if r.MaxHistory = 0 then { r with MaxHistory := s.Settings.GlobalMaxHistory } else r

/-- The per-release body of the `setDefaults` loop: default the name to the
document key when unset, then run hook and history inheritance. -/
def applyReleaseDefaults (s : state) (name : String) (r : release) : release :=
  ((if r.Name = "" then { r with Name := name } else r).inheritHooks s).inheritMaxHistory s

/-- Embedding of `state.setDefaults`: default the storage backend to
"secret" when unset (the `os.Setenv` branch for a user-set backend does not
touch document fields), default the context name, then apply per-release
defaults and inheritance.  The release loop reads the already-updated
settings, as in the source. -/
def setDefaults (s : state) : state :=
  let settings :=
    if s.Settings.StorageBackend = "" then
      { s.Settings with StorageBackend := "secret" }
    else s.Settings
  let ctx := if s.Context = "" then defaultContextName else s.Context
  let s₁ : state := { s with Settings := settings, Context := ctx }
  { s₁ with Apps := s₁.Apps.map (List.map (fun kv => (kv.1, applyReleaseDefaults s₁ kv.1 kv.2))) }

/-- The duplicate-detection structure threaded through per-release
validation: namespace → release name → seen. -/
def DupNames : Type := List (String × List (String × Bool))

/-- The external collaborators of the validation pipeline, passed as
oracles: `parseOk v` is whether `url.ParseRequestURI v` succeeds, `statOk
p` whether `os.Stat p` succeeds, `getKubeContext` the ambient-context
discovery, `validateHooks` the external hook-schema validator, `nsOverride`
the external `--ns-override` flag value, and `appValidate` the external
per-release validator `r.validate(label, names, s)` (error or updated
duplicate tracker). -/
structure Externals where
  getKubeContext : Bool
  parseOk : String → Bool
  statOk : String → Bool
  validateHooks : List (String × String) → Bool × String
  nsOverride : String
  appValidate : String → release → DupNames → state → Except String DupNames

/-- Embedding of `strings.HasPrefix(value, pre)` as a character-list
prefix test (byte prefix and character prefix agree on UTF-8 strings). -/
def strHasPfx (value pre : String) : Bool := pre.data.isPrefixOf value.data

/-- Embedding of `isValidCert`: `err1` is the `url.ParseRequestURI`
failure, `err2` the `os.Stat` failure; the value is rejected exactly when
`err2 != nil && (err1 != nil || no recognized bucket scheme)`. -/
def isValidCert (pk st : String → Bool) (value : String) : Bool × String :=
  if !(st value) &&
      (!(pk value) ||
        (!(strHasPfx value "s3://") && !(strHasPfx value "gs://") &&
          !(strHasPfx value "az://"))) then
    (false, "")
  else
    (true, value)

/-- The three recognized remote-bucket schemes, used to state properties of
`isValidCert`. -/
def hasBucketScheme (value : String) : Bool :=
  strHasPfx value "s3://" || strHasPfx value "gs://" || strHasPfx value "az://"

/-- The settings-presence check of `validate`: `reflect.DeepEqual` against
the zero config or a missing kube context, with no ambient context
available. -/
def presenceStage (ext : Externals) (s : state) : Option String :=
  if (s.Settings = emptyConfig ∨ s.Settings.KubeContext = "") ∧ ext.getKubeContext = false then
    some ("settings validation failed -- you have not defined a " ++
      "kubeContext to use. Either define it in the desired state file or pass a kubeconfig with --kubeconfig to use an existing context")
  else none

/-- The cluster-URI block of `validate`'s settings stage, including the
`else if` branch rejecting bearer-token auth without a cluster URI. -/
def settingsStage (ext : Externals) (s : state) : Option String :=
  if s.Settings.ClusterURI ≠ "" then
    if ext.parseOk s.Settings.ClusterURI = false then
      some "settings validation failed -- clusterURI must have a valid URL set in an env variable or passed directly. Either the env var is missing/empty or the URL is invalid"
    else if s.Settings.KubeContext = "" then
      some "settings validation failed -- KubeContext needs to be provided in the settings stanza"
    else if s.Settings.BearerToken = false ∧ s.Settings.Username = "" then
      some "settings validation failed -- username needs to be provided in the settings stanza"
    else if s.Settings.BearerToken = false ∧ s.Settings.Password = "" then
      some "settings validation failed -- password needs to be provided (directly or from env var) in the settings stanza"
    else if s.Settings.BearerToken = true ∧ s.Settings.BearerTokenPath ≠ "" ∧
        ext.statOk s.Settings.BearerTokenPath = false then
      some ("settings validation failed -- bearer token path " ++
        s.Settings.BearerTokenPath ++ " is not found. The path has to be relative to the desired state file")
    else none
  else if s.Settings.BearerToken = true ∧ s.Settings.ClusterURI = "" then
    some "settings validation failed -- bearer token is enabled but no cluster URI provided"
  else none

/-- The lifecycle-hooks stage of `validate`: non-empty global hooks are
checked by the external hook-schema validator, whose message is propagated
verbatim. -/
def hooksStage (ext : Externals) (s : state) : Option String :=
  if s.Settings.GlobalHooks ≠ [] then
    match ext.validateHooks s.Settings.GlobalHooks with
    | (true, _) => none
    | (false, msg) => some msg
  else none

/-- The slack-webhook stage of `validate`. -/
def slackStage (ext : Externals) (s : state) : Option String :=
  if s.Settings.SlackWebhook ≠ "" ∧ ext.parseOk s.Settings.SlackWebhook = false then
    some "settings validation failed -- slackWebhook must be a valid URL"
  else none

/-- The certificates stage of `validate`: each entry must satisfy
`isValidCert` (the in-place rewrite `s.Certificates[key] = path` stores the
value unchanged, so the document is unaffected); then the caCrt/caKey
cross-invariant, and the no-certificates-but-cluster-URI error. -/
def certsStage (ext : Externals) (s : state) : Option String :=
  if s.Certificates ≠ [] then
    match s.Certificates.find? (fun kv => !(isValidCert ext.parseOk ext.statOk kv.2).1) with
    | some kv =>
      some ("certifications validation failed -- [ " ++ kv.1 ++
        " ] must be a valid S3, GCS, AZ bucket/container URL or a valid relative file path")
    | none =>
      if s.Settings.ClusterURI ≠ "" ∧ s.Settings.BearerToken = false then
        if (getMap s.Certificates "caCrt").isSome = false ∨
            (getMap s.Certificates "caKey").isSome = false then
          some ("certificates validation failed -- connection to cluster is required " ++
            "but no cert/key was given. Please add [caCrt] and [caKey] under Certifications. You might also need to provide [clientCrt]")
        else none
      else if s.Settings.ClusterURI ≠ "" ∧ s.Settings.BearerToken = true then
        if (getMap s.Certificates "caCrt").isSome = false then
          some ("certificates validation failed -- cluster connection with bearer token is enabled but " ++
            "[caCrt] is missing. Please provide [caCrt] in the Certifications stanza")
        else none
      else none
  else
    if s.Settings.ClusterURI ≠ "" then
      some "certificates validation failed -- kube context setup is required but no certificates stanza provided"
    else none

/-- The eyaml-keys stage of `validate`: both key paths or neither. -/
def eyamlStage (s : state) : Option String :=
  if (s.Settings.EyamlPrivateKeyPath ≠ "" ∧ s.Settings.EyamlPublicKeyPath = "") ∨
      (s.Settings.EyamlPrivateKeyPath = "" ∧ s.Settings.EyamlPublicKeyPath ≠ "") then
    some "both EyamlPrivateKeyPath and EyamlPublicKeyPath are required"
  else none

/-- The namespaces stage of `validate`: at least one namespace unless the
external namespace-override flag is active. -/
def namespacesStage (ext : Externals) (s : state) : Option String :=
  if ext.nsOverride = "" then
    if s.Namespaces = [] then
      some "namespaces validation failed -- at least one namespace is required"
    else none
  else none

/-- The repositories stage of `validate`: every chart-repo URI must parse. -/
def reposStage (ext : Externals) (s : state) : Option String :=
  match s.HelmRepos.find? (fun kv => !(ext.parseOk kv.2)) with
  | some kv =>
    some ("repos validation failed -- repo [" ++ kv.1 ++ " ] " ++ "must have a valid URL")
  | none => none

/-- The releases stage of `validate`: every release is checked by the
external per-release validator, threading the shared duplicate tracker;
the first failure is wrapped with the offending release's label. -/
def appsStage (ext : Externals) (s : state) : List (String × release) → DupNames → Option String
  | [], _ => none
  | (label, r) :: rest, names =>
    match ext.appValidate label r names s with
    | .error e => some ("apps validation failed -- for app [" ++ label ++ " ]. " ++ e)
    | .ok names' => appsStage ext s rest names'

/-- The fixed fail-fast sequence of validation stages after the apps-presence
check; the first `some` error aborts the pipeline. -/
def stagesErr (ext : Externals) (s : state) (apps : List (String × release)) : Option String :=
  match presenceStage ext s with
  | some e => some e
  | none =>
  match settingsStage ext s with
  | some e => some e
  | none =>
  match hooksStage ext s with
  | some e => some e
  | none =>
  match slackStage ext s with
  | some e => some e
  | none =>
  match certsStage ext s with
  | some e => some e
  | none =>
  match eyamlStage s with
  | some e => some e
  | none =>
  match namespacesStage ext s with
  | some e => some e
  | none =>
  match reposStage ext s with
  | some e => some e
  | none => appsStage ext s apps []

/-- The result of `validate`: the `os.Exit(0)` taken when `s.Apps == nil`
is the distinguished `noop` outcome, distinct from both success and
failure. -/
inductive VResult where
  | noop
  | ok
  | err (msg : String)
deriving DecidableEq, Repr

/-- `true` exactly on the failure outcome. -/
def VResult.isErr : VResult → Bool
  | .err _ => true
  | _ => false

/-- Embedding of `state.validate`: `nil` apps short-circuit the program
successfully; otherwise the fail-fast stage sequence decides the result. -/
def validate (ext : Externals) (s : state) : VResult :=
  match s.Apps with
  | none => .noop
  | some apps =>
    match stagesErr ext s apps with
    | some e => .err e
    | none => .ok

/-- The releases eligible for chart validation: exactly those considered to
run (the `continue` in `validateReleaseCharts` skips the rest). -/
def eligibleApps (s : state) : List (String × release) :=
  (s.Apps.getD []).filter (fun kv => kv.2.isConsideredToRun)

/-- The distinct (chart, version) pairs of the eligible releases — the keys
of the nested `charts` map of `validateReleaseCharts`, one probe each. -/
def chartVersionPairs (s : state) : List (String × String) :=
  ((eligibleApps s).map (fun kv => (kv.2.Chart, kv.2.Version))).dedup

/-- The comma-joined names of the eligible releases sharing one
(chart, version) pair, passed to the probe for diagnostics. -/
def concattedApps (s : state) (p : String × String) : String :=
  String.intercalate ", "
    (((eligibleApps s).filter (fun kv => (kv.2.Chart, kv.2.Version) = p)).map (fun kv => kv.1))

/-- Embedding of `state.validateReleaseCharts`, with the external
`validateChart` probe as an oracle (arguments: joined app names, chart,
version; result: the string the probe writes to the result channel, empty
on success).  The bounded pool and channel only schedule the probes: every
probe runs to completion and every result is drained after the join, so
the functional model collects all results and fails when any is
non-empty. -/
def validateReleaseCharts (probe : String → String → String → String) (s : state) :
    Option String :=
  let results := (chartVersionPairs s).map (fun p => probe (concattedApps s p) p.1 p.2)
  if results.any (fun e => e ≠ "") then some "chart validation failed" else none

/-- Embedding of the `makeTargetMap` loop over `s.Apps`: every release
whose group label is in the requested groups is inserted with value
`true`.  (`groupMap[data.Group]` holds exactly when the group is in the
requested list, all `groupMap` values being `true`.) -/
def addGroupTargets (groups : List String) :
    List (String × release) → List (String × Bool) → List (String × Bool)
  | [], tm => tm
  | (n, r) :: rest, tm =>
    addGroupTargets groups rest (if groups.contains r.Group then setMap tm n true else tm)

/-- Embedding of the `makeTargetMap` loop over the requested names: every
requested name is inserted with value `true`, whether or not a release by
that name exists. -/
def addNameTargets : List String → List (String × Bool) → List (String × Bool)
  | [], tm => tm
  | t :: rest, tm => addNameTargets rest (setMap tm t true)

/-- Embedding of `state.makeTargetMap` (a `nil` target map is allocated
empty first, which the list model already is). -/
def makeTargetMap (s : state) (groups targets : List String) : state :=
  { s with TargetMap := addNameTargets targets (addGroupTargets groups (s.Apps.getD []) s.TargetMap) }

/-- Whether `use, ok := tm[n]` yields `ok && use` — the condition under
which `disableUntargettedApps` spares a release. -/
def targetedIn (tm : List (String × Bool)) (n : String) : Bool :=
  match getMap tm n with
  | some true => true
  | _ => false

/-- The loop of `disableUntargettedApps` over `s.Apps`: untargetted
releases are disabled, targeted ones contribute their namespace to the
"namespaces still in use" set (second component). -/
def disableStep (tm : List (String × Bool)) :
    List (String × release) → List (String × release) × List String
  | [] => ([], [])
  | (n, r) :: rest =>
    let p := disableStep tm rest
    match getMap tm n with
    | some true => ((n, r) :: p.1, r.Namespace :: p.2)
    | _ => ((n, r.Disable) :: p.1, p.2)

/-- Embedding of `state.disableUntargettedApps`: a no-op on an empty target
map; otherwise disable untargetted releases, then disable every namespace
not in the "still in use" set computed from the surviving loop. -/
def disableUntargettedApps (s : state) : state :=
  if s.TargetMap = [] then s
  else
    let p := disableStep s.TargetMap (s.Apps.getD [])
    { s with
      Apps := s.Apps.map (fun _ => p.1)
      Namespaces := s.Namespaces.map (fun kv =>
        if p.2.contains kv.1 then kv else (kv.1, kv.2.Disable)) }

/-- Helper for concrete test documents: a release with the given identity
and enablement, no hook/history overrides. -/
def mkRelease (name ns group chart ver : String) (enabled : Bool) : release :=
  { Name := name, Namespace := ns, Group := group, Chart := chart, Version := ver
    Enabled := enabled, Hooks := [], MaxHistory := 0 }

/-- A benign external environment: no ambient context, every URI parses,
every path exists, hooks always valid, no namespace override, per-release
validation always passes. -/
def extDefault : Externals :=
  { getKubeContext := false, parseOk := fun _ => true, statOk := fun _ => true
    validateHooks := fun _ => (true, ""), nsOverride := ""
    appValidate := fun _ _ names _ => .ok names }

/-- A parse oracle under which every value parses as an absolute URI (as
`url.ParseRequestURI` does for `http://example.com`). -/
def pkAllParse : String → Bool := fun _ => true

/-- A stat oracle under which no value names an existing local path. -/
def stNoneExist : String → Bool := fun _ => false

/-- A document whose apps map is present but empty (`apps: {}`), with
otherwise zero-valued fields. -/
def stEmptyApps : state := { emptyState with Apps := some [] }

/-- A document with a single disabled release that is nevertheless targeted:
its namespace survives disablement although no release remains enabled. -/
def stDisabledTarget : state :=
  { emptyState with
    Apps := some [("app1", mkRelease "app1" "ns1" "" "chart1" "1.0" false)]
    Namespaces := [("ns1", { Enabled := true })]
    TargetMap := [("app1", true)] }

/-- A two-release, two-namespace document targeting only `app1`. -/
def stTargetW : state :=
  { emptyState with
    Apps := some [("app1", mkRelease "app1" "ns1" "" "chart1" "1.0" true),
                  ("app2", mkRelease "app2" "ns2" "" "chart2" "1.0" true)]
    Namespaces := [("ns1", { Enabled := true }), ("ns2", { Enabled := true })]
    TargetMap := [("app1", true)] }

/-- The spec's target-map example document: releases app1(group=g1),
app2(group=g2), app3(group=g3), fresh (empty) target map. -/
def stUnion : state :=
  { emptyState with
    Apps := some [("app1", mkRelease "app1" "ns1" "g1" "chart1" "1.0" true),
                  ("app2", mkRelease "app2" "ns2" "g2" "chart2" "1.0" true),
                  ("app3", mkRelease "app3" "ns3" "g3" "chart3" "1.0" true)]
    Namespaces := [("ns1", { Enabled := true }), ("ns2", { Enabled := true }),
                   ("ns3", { Enabled := true })] }

/-- A probe that fails exactly on the chart named "badchart". -/
def probeBad : String → String → String → String :=
  fun _ chart _ => if chart = "badchart" then "chart not found" else ""

/-- A document with one passing chart, one failing chart and one disabled
release referencing the failing chart. -/
def stCharts : state :=
  { emptyState with
    Apps := some [("app1", mkRelease "app1" "ns1" "" "okchart" "1.0" true),
                  ("app2", mkRelease "app2" "ns1" "" "badchart" "2.0" true),
                  ("app3", mkRelease "app3" "ns1" "" "offchart" "3.0" false)]
    Namespaces := [("ns1", { Enabled := true })] }

/-- A document with a declared app, a cluster URI, basic auth and no
certificates stanza. -/
def stCerts : state :=
  { emptyState with
    Apps := some [("app1", mkRelease "app1" "ns1" "" "chart1" "1.0" true)]
    Settings := { emptyConfig with
      ClusterURI := "https://cluster.example", KubeContext := "ctx"
      Username := "u", Password := "p" }
    Namespaces := [("ns1", { Enabled := true })] }

/-- The same settings as `stCerts` but with a `nil` apps map. -/
def stNilAppsURI : state :=
  { emptyState with
    Settings := { emptyConfig with
      ClusterURI := "https://cluster.example", KubeContext := "ctx"
      Username := "u", Password := "p" }
    Namespaces := [("ns1", { Enabled := true })] }

/-- A document with bearer-token auth enabled, a kube context, and no
cluster URI. -/
def stBearerNoURI : state :=
  { emptyState with
    Apps := some []
    Settings := { emptyConfig with KubeContext := "ctx", BearerToken := true } }

/-- A document with releases and namespaces but an empty target map. -/
def stNoTargets : state :=
  { emptyState with
    Apps := some [("app1", mkRelease "app1" "ns1" "" "chart1" "1.0" true)]
    Namespaces := [("ns1", { Enabled := true })] }

/-- A one-release document used with a names selector that matches no
existing release. -/
def stGhost : state :=
  { emptyState with
    Apps := some [("app1", mkRelease "app1" "ns1" "g1" "chart1" "1.0" true)]
    Namespaces := [("ns1", { Enabled := true })] }

/-- Lookup after update: the updated key reads the new value, others are
unchanged. -/
theorem getMap_setMap {α : Type} (m : List (String × α)) (k k' : String) (v : α) :
    getMap (setMap m k v) k' = if k = k' then some v else getMap m k' := by
  induction m with
  | nil =>
    by_cases h : k = k' <;> simp [setMap, getMap, h]
  | cons kv rest ih =>
    obtain ⟨a, b⟩ := kv
    by_cases hak : a = k
    · subst hak
      by_cases hk' : a = k' <;> simp [setMap, getMap, hk']
    · by_cases hk' : a = k'
      · subst hk'
        simp [setMap, getMap, hak, Ne.symm hak]
      · simp [setMap, getMap, hak, hk', ih]

/-- Entries set to `true` survive the group-selection loop. -/
theorem addGroupTargets_mono (groups : List String) (apps : List (String × release))
    (tm : List (String × Bool)) (n : String) (h : getMap tm n = some true) :
    getMap (addGroupTargets groups apps tm) n = some true := by
  induction apps generalizing tm with
  | nil => simpa [addGroupTargets] using h
  | cons kv rest ih =>
    obtain ⟨m, r⟩ := kv
    by_cases hc : groups.contains r.Group
    · simp only [addGroupTargets, if_pos hc]
      apply ih
      rw [getMap_setMap]
      by_cases hmn : m = n
      · simp [hmn]
      · simp [hmn, h]
    · simp only [addGroupTargets, if_neg hc]
      exact ih tm h

/-- Entries set to `true` survive the name-selection loop. -/
theorem addNameTargets_mono (targets : List String) (tm : List (String × Bool))
    (n : String) (h : getMap tm n = some true) :
    getMap (addNameTargets targets tm) n = some true := by
  induction targets generalizing tm with
  | nil => simpa [addNameTargets] using h
  | cons t rest ih =>
    simp only [addNameTargets]
    apply ih
    rw [getMap_setMap]
    by_cases htn : t = n
    · simp [htn]
    · simp [htn, h]

/-- Every release whose group label is selected ends in the target map with
value `true`. -/
theorem addGroupTargets_complete (groups : List String) (apps : List (String × release))
    (tm : List (String × Bool)) (n : String) (r : release)
    (hmem : (n, r) ∈ apps) (hg : groups.contains r.Group = true) :
    getMap (addGroupTargets groups apps tm) n = some true := by
  induction apps generalizing tm with
  | nil => cases hmem
  | cons kv rest ih =>
    rcases List.mem_cons.mp hmem with heq | htail
    · obtain ⟨m, r'⟩ := kv
      obtain ⟨hm, hr⟩ := Prod.mk.injEq .. ▸ heq
      subst hm; subst hr
      simp only [addGroupTargets, if_pos hg]
      exact addGroupTargets_mono groups rest _ n (by rw [getMap_setMap]; simp)
    · obtain ⟨m, r'⟩ := kv
      simp only [addGroupTargets]
      by_cases hc : groups.contains r'.Group
      · simp only [if_pos hc]
        exact ih _ htail
      · simp only [if_neg hc]
        exact ih tm htail

/-- Every explicitly requested name ends in the target map with value
`true`, whether or not a release by that name exists. -/
theorem addNameTargets_complete (targets : List String) (tm : List (String × Bool))
    (n : String) (hmem : n ∈ targets) :
    getMap (addNameTargets targets tm) n = some true := by
  induction targets generalizing tm with
  | nil => cases hmem
  | cons t rest ih =>
    rcases List.mem_cons.mp hmem with heq | htail
    · subst heq
      simp only [addNameTargets]
      by_cases hn : n ∈ rest
      · exact ih _ hn
      · exact addNameTargets_mono rest _ n (by rw [getMap_setMap]; simp)
    · exact ih _ htail

/-- The group-selection loop stores no `false` entry. -/
theorem addGroupTargets_notFalse (groups : List String) (apps : List (String × release))
    (tm : List (String × Bool)) (n : String) (h : getMap tm n ≠ some false) :
    getMap (addGroupTargets groups apps tm) n ≠ some false := by
  induction apps generalizing tm with
  | nil => simpa [addGroupTargets] using h
  | cons kv rest ih =>
    obtain ⟨m, r⟩ := kv
    by_cases hc : groups.contains r.Group
    · simp only [addGroupTargets, if_pos hc]
      apply ih
      rw [getMap_setMap]
      by_cases hmn : m = n
      · simp [hmn]
      · simp [hmn, h]
    · simp only [addGroupTargets, if_neg hc]
      exact ih tm h

/-- The name-selection loop stores no `false` entry. -/
theorem addNameTargets_notFalse (targets : List String) (tm : List (String × Bool))
    (n : String) (h : getMap tm n ≠ some false) :
    getMap (addNameTargets targets tm) n ≠ some false := by
  induction targets generalizing tm with
  | nil => simpa [addNameTargets] using h
  | cons t rest ih =>
    simp only [addNameTargets]
    apply ih
    rw [getMap_setMap]
    by_cases htn : t = n
    · simp [htn]
    · simp [htn, h]

/-- A key selected by no group criterion is untouched by the
group-selection loop. -/
theorem addGroupTargets_untouched (groups : List String) (apps : List (String × release))
    (tm : List (String × Bool)) (n : String)
    (hn : ∀ r, (n, r) ∈ apps → groups.contains r.Group = false) :
    getMap (addGroupTargets groups apps tm) n = getMap tm n := by
  induction apps generalizing tm with
  | nil => simp [addGroupTargets]
  | cons kv rest ih =>
    obtain ⟨m, r⟩ := kv
    by_cases hc : groups.contains r.Group
    · simp only [addGroupTargets, if_pos hc]
      have hmn : m ≠ n := by
        intro he
        subst he
        have h0 := hn r (List.mem_cons_self _ _)
        rw [h0] at hc
        exact absurd hc (by decide)
      rw [ih (setMap tm m true) (fun r' hr' => hn r' (List.mem_cons_of_mem _ hr')), getMap_setMap]
      simp [hmn]
    · simp only [addGroupTargets, if_neg hc]
      exact ih tm (fun r' hr' => hn r' (List.mem_cons_of_mem _ hr'))

/-- A key not among the requested names is untouched by the name-selection
loop. -/
theorem addNameTargets_untouched (targets : List String) (tm : List (String × Bool))
    (n : String) (hn : n ∉ targets) :
    getMap (addNameTargets targets tm) n = getMap tm n := by
  induction targets generalizing tm with
  | nil => simp [addNameTargets]
  | cons t rest ih =>
    have htn : t ≠ n := fun he => hn (he ▸ List.mem_cons_self _ _)
    simp only [addNameTargets]
    rw [ih (setMap tm t true) (fun hr => hn (List.mem_cons_of_mem _ hr)), getMap_setMap]
    simp [htn]

/-- The release loop of `disableUntargettedApps` keeps targeted entries
unchanged and disables the rest. -/
theorem disableStep_fst (tm : List (String × Bool)) (l : List (String × release)) :
    (disableStep tm l).1 =
      l.map (fun kv => if targetedIn tm kv.1 then kv else (kv.1, kv.2.Disable)) := by
  induction l with
  | nil => rfl
  | cons kv rest ih =>
    obtain ⟨n, r⟩ := kv
    cases hg : getMap tm n with
    | none => simp [disableStep, hg, targetedIn, ih]
    | some b => cases b <;> simp [disableStep, hg, targetedIn, ih]

/-- A key absent from the target map is not targeted. -/
theorem targetedIn_none (tm : List (String × Bool)) (n : String)
    (h : getMap tm n = none) : targetedIn tm n = false := by
  simp [targetedIn, h]

/-- A key mapped to `false` is not targeted. -/
theorem targetedIn_some_false (tm : List (String × Bool)) (n : String)
    (h : getMap tm n = some false) : targetedIn tm n = false := by
  simp [targetedIn, h]

/-- A key mapped to `true` is targeted. -/
theorem targetedIn_some_true (tm : List (String × Bool)) (n : String)
    (h : getMap tm n = some true) : targetedIn tm n = true := by
  simp [targetedIn, h]

/-- The "namespaces still in use" set collected by the release loop holds a
name exactly when some targeted release (enabled or not) has it as its
namespace. -/
theorem disableStep_snd_contains (tm : List (String × Bool))
    (l : List (String × release)) (x : String) :
    (disableStep tm l).2.contains x =
      l.any (fun q => targetedIn tm q.1 && q.2.Namespace == x) := by
  induction l with
  | nil => rfl
  | cons kv rest ih =>
    obtain ⟨n, r⟩ := kv
    have ih₂ := ih
    simp only [] at ih₂
    cases hg : getMap tm n with
    | none =>
      simp [disableStep, hg, targetedIn_none tm n hg]
      simpa using ih₂
    | some b =>
      cases b with
      | false =>
        simp [disableStep, hg, targetedIn_some_false tm n hg]
        simpa using ih₂
      | true =>
        have ih₃ : decide (x ∈ (disableStep tm rest).2) =
            rest.any fun q => targetedIn tm q.1 && q.2.Namespace == x := by simpa using ih
        have hsym : (r.Namespace == x) = decide (x = r.Namespace) := by
          by_cases he : x = r.Namespace
          · simp [he]
          · have hne : r.Namespace ≠ x := fun hh => he hh.symm
            simp [he, hne]
        simp [disableStep, hg, targetedIn_some_true tm n hg, ih₃, hsym]

/-- A `some` result of any stage before the certificates stage, or of the
certificates stage itself, makes the stage chain fail. -/
theorem stagesErr_isSome_of_certs (ext : Externals) (s : state)
    (apps : List (String × release)) (h : (certsStage ext s).isSome = true) :
    (stagesErr ext s apps).isSome = true := by
  unfold stagesErr
  cases hp : presenceStage ext s with
  | some e => simp
  | none =>
    cases hs : settingsStage ext s with
    | some e => simp
    | none =>
      cases hh : hooksStage ext s with
      | some e => simp
      | none =>
        cases hsl : slackStage ext s with
        | some e => simp
        | none =>
          cases hc : certsStage ext s with
          | some e => simp
          | none => rw [hc] at h; simp at h

/-- A failing stage chain makes `validate` return an error. -/
theorem validate_isErr_of_stages (ext : Externals) (s : state)
    (apps : List (String × release)) (hA : s.Apps = some apps)
    (h : (stagesErr ext s apps).isSome = true) : (validate ext s).isErr = true := by
  obtain ⟨e, he⟩ := Option.isSome_iff_exists.mp h
  simp [validate, hA, he, VResult.isErr]

/-- With a cluster URI configured, the certificates stage fails whenever
the stanza is empty, or basic auth misses caCrt or caKey, or bearer auth
misses caCrt. -/
theorem certsStage_isSome (ext : Externals) (s : state)
    (hURI : s.Settings.ClusterURI ≠ "")
    (h : s.Certificates = [] ∨
      (s.Settings.BearerToken = false ∧
        ((getMap s.Certificates "caCrt").isSome = false ∨
          (getMap s.Certificates "caKey").isSome = false)) ∨
      (s.Settings.BearerToken = true ∧ (getMap s.Certificates "caCrt").isSome = false)) :
    (certsStage ext s).isSome = true := by
  unfold certsStage
  by_cases hcert : s.Certificates = []
  · simp [hcert, hURI]
  · rcases h with h | ⟨hb, hmiss⟩ | ⟨hb, hmiss⟩
    · exact absurd h hcert
    · simp only [if_neg hcert, ne_eq, hcert, not_false_eq_true, if_pos]
      cases hf : s.Certificates.find?
          (fun kv => !(isValidCert ext.parseOk ext.statOk kv.2).1) with
      | some kv => simp
      | none =>
        have hcond : s.Settings.ClusterURI ≠ "" ∧ s.Settings.BearerToken = false := ⟨hURI, hb⟩
        rcases hmiss with hm | hm <;> simp [hcond, hm]
    · simp only [if_neg hcert, ne_eq, hcert, not_false_eq_true, if_pos]
      cases hf : s.Certificates.find?
          (fun kv => !(isValidCert ext.parseOk ext.statOk kv.2).1) with
      | some kv => simp
      | none =>
        have hcond : ¬ (s.Settings.ClusterURI ≠ "" ∧ s.Settings.BearerToken = false) := by
          simp [hb]
        have hcond2 : s.Settings.ClusterURI ≠ "" ∧ s.Settings.BearerToken = true := ⟨hURI, hb⟩
        simp [hcond, hcond2, hmiss]

/-- Closed form of the per-release defaulting step: each of the three
fields is filled independently when zero-valued. -/
theorem applyReleaseDefaults_eq (s : state) (name : String) (r : release) :
    applyReleaseDefaults s name r =
      { r with
        Name := if r.Name = "" then name else r.Name
        Hooks := if r.Hooks = [] then s.Settings.GlobalHooks else r.Hooks
        MaxHistory := if r.MaxHistory = 0 then s.Settings.GlobalMaxHistory else r.MaxHistory } := by
  unfold applyReleaseDefaults release.inheritHooks release.inheritMaxHistory
  by_cases h1 : r.Name = "" <;> by_cases h2 : r.Hooks = [] <;> by_cases h3 : r.MaxHistory = 0 <;>
    simp [h1, h2, h3]

/-- The per-release defaulting step is idempotent whenever both passes read
the same settings. -/
theorem applyReleaseDefaults_idem (s₁ s₂ : state) (hset : s₂.Settings = s₁.Settings)
    (name : String) (r : release) :
    applyReleaseDefaults s₂ name (applyReleaseDefaults s₁ name r) =
      applyReleaseDefaults s₁ name r := by
  simp only [applyReleaseDefaults_eq, hset]
  by_cases h1 : r.Name = "" <;> by_cases h2 : r.Hooks = [] <;> by_cases h3 : r.MaxHistory = 0 <;>
    simp [h1, h2, h3]

/-- C1 (amended): for every parse/stat oracle and value, `isValidCert`
reports the value valid exactly when it names an existing local filesystem
path, or it both parses as an absolute URI and starts with one of the three
recognized remote-bucket prefixes; a valid value is returned unchanged and
an invalid one is replaced by the empty string. -/
theorem isValidCert_characterization (pk st : String → Bool) (v : String) :
    isValidCert pk st v =
      (st v || (pk v && hasBucketScheme v),
        if (st v || (pk v && hasBucketScheme v)) = true then v else "") := by
  unfold isValidCert hasBucketScheme
  cases hs : st v <;> cases hp : pk v <;>
    cases h1 : strHasPfx v "s3://" <;> cases h2 : strHasPfx v "gs://" <;>
    cases h3 : strHasPfx v "az://" <;> simp [hs, hp, h1, h2, h3]

/-- C1 counterexample: under oracles reflecting the real behaviour of
`url.ParseRequestURI` (the absolute URI `http://example.com` parses) and
`os.Stat` (it names no local path), `isValidCert` rejects the value even
though it parses as an absolute URI and the claim calls any such value
valid. -/
theorem isValidCert_plainURI_rejected :
    pkAllParse "http://example.com" = true ∧
    stNoneExist "http://example.com" = false ∧
    hasBucketScheme "http://example.com" = false ∧
    (isValidCert pkAllParse stNoneExist "http://example.com").1 = false :=
  ⟨rfl, rfl, by decide, by decide⟩

/-- C2 (amended): `validate` treats the run as a clean no-op exactly when
the apps map is absent (`nil`); any declared apps map — even an empty one —
proceeds to the later validation stages and ends in success or error. -/
theorem validate_noop_iff (ext : Externals) (s : state) :
    validate ext s = VResult.noop ↔ s.Apps = none := by
  cases hA : s.Apps with
  | none => simp [validate, hA]
  | some apps =>
    simp only [validate, hA]
    cases hs : stagesErr ext s apps <;> simp

/-- C2 counterexample: a document whose set of declared apps is empty but
present (`apps: {}` deserializes to an empty non-nil map) is not treated as
a no-op: `validate` continues to the settings stage instead of terminating
the run successfully. -/
theorem validate_emptyApps_not_noop :
    stEmptyApps.Apps = some [] ∧ validate extDefault stEmptyApps ≠ VResult.noop :=
  ⟨rfl, by decide⟩

/-- C6: applying the Defaults and Inheritance Resolver twice yields the
same document as applying it once (the re-run changes no document field). -/
theorem setDefaults_idempotent (s : state) : setDefaults (setDefaults s) = setDefaults s := by
  have hsecret : ("secret" : String) ≠ "" := by decide
  have hdefault : defaultContextName ≠ "" := by decide
  unfold setDefaults
  by_cases hsb : s.Settings.StorageBackend = "" <;> by_cases hctx : s.Context = "" <;>
    simp [hsb, hctx, hsecret, hdefault, Option.map_map, List.map_map] <;>
    (refine congrArg₂ Option.map ?_ rfl) <;>
    (refine congrArg List.map ?_) <;>
    funext kv <;>
    exact congrArg (fun r => (kv.1, r)) (applyReleaseDefaults_idem _ _ rfl kv.1 kv.2)

/-- C8: with an empty TargetMap, `disableUntargettedApps` returns the
document unchanged: no release, namespace or any other field is modified. -/
theorem disableUntargettedApps_empty_noop (s : state) (h : s.TargetMap = []) :
    disableUntargettedApps s = s := by
  simp [disableUntargettedApps, h]

/-- C8 witness: the no-op evaluated on a concrete document with releases
and namespaces but no selectors. -/
theorem disableUntargettedApps_empty_noop_w :
    stNoTargets.TargetMap = [] ∧ disableUntargettedApps stNoTargets = stNoTargets :=
  ⟨rfl, disableUntargettedApps_empty_noop stNoTargets rfl⟩

/-- C9: for every document that passes the apps-presence and
context-presence stages, bearer-token auth enabled without a cluster URI
makes `validate` return the settings error. -/
theorem validate_bearer_without_uri (ext : Externals) (s : state)
    (apps : List (String × release)) (hA : s.Apps = some apps)
    (hPres : presenceStage ext s = none)
    (hB : s.Settings.BearerToken = true) (hU : s.Settings.ClusterURI = "") :
    validate ext s =
      VResult.err "settings validation failed -- bearer token is enabled but no cluster URI provided" := by
  have hset : settingsStage ext s =
      some "settings validation failed -- bearer token is enabled but no cluster URI provided" := by
    unfold settingsStage
    simp [hU, hB]
  have hch : stagesErr ext s apps =
      some "settings validation failed -- bearer token is enabled but no cluster URI provided" := by
    unfold stagesErr
    rw [hPres, hset]
  simp [validate, hA, hch]

/-- C9 witness: the bearer-without-URI error on a concrete document. -/
theorem validate_bearer_without_uri_w :
    validate extDefault stBearerNoURI =
      VResult.err "settings validation failed -- bearer token is enabled but no cluster URI provided" :=
  validate_bearer_without_uri extDefault stBearerNoURI [] rfl (by decide) rfl rfl

/-- C3 (amended): with a non-empty TargetMap, a release keeps its previous
state when targeted (present in the map with `true`) and is disabled
otherwise; a namespace keeps its previous state exactly when it is the
namespace of at least one targeted release — whether or not that release
remains enabled — and is disabled otherwise; the namespace decision is
computed from the complete release decisions. -/
theorem disableUntargettedApps_characterization (s : state) (h : s.TargetMap ≠ []) :
    (disableUntargettedApps s).Apps =
      s.Apps.map (List.map (fun kv =>
        if targetedIn s.TargetMap kv.1 then kv else (kv.1, kv.2.Disable)))
  ∧ (disableUntargettedApps s).Namespaces =
      s.Namespaces.map (fun kv =>
        if (s.Apps.getD []).any (fun q => targetedIn s.TargetMap q.1 && q.2.Namespace == kv.1)
        then kv else (kv.1, kv.2.Disable)) := by
  constructor
  · simp only [disableUntargettedApps, if_neg h]
    cases hA : s.Apps with
    | none => rfl
    | some l => simp [hA, disableStep_fst]
  · simp only [disableUntargettedApps, if_neg h]
    simp only [disableStep_snd_contains]

/-- C3 witness: the characterization evaluated on a two-release document
targeting only app1. -/
theorem disableUntargettedApps_characterization_w :
    stTargetW.TargetMap ≠ [] ∧
    ((disableUntargettedApps stTargetW).Apps =
      stTargetW.Apps.map (List.map (fun kv =>
        if targetedIn stTargetW.TargetMap kv.1 then kv else (kv.1, kv.2.Disable)))
    ∧ (disableUntargettedApps stTargetW).Namespaces =
      stTargetW.Namespaces.map (fun kv =>
        if (stTargetW.Apps.getD []).any
            (fun q => targetedIn stTargetW.TargetMap q.1 && q.2.Namespace == kv.1)
        then kv else (kv.1, kv.2.Disable))) :=
  ⟨by decide, disableUntargettedApps_characterization stTargetW (by decide)⟩

/-- C3 counterexample: in `stDisabledTarget` the only release is targeted
but already disabled; after `disableUntargettedApps` no release is enabled,
yet the namespace "ns1" is left enabled — refuting the claim that a
namespace is left enabled iff it is the namespace of at least one release
that remains enabled. -/
theorem disableUntargettedApps_ns_kept_without_enabled_release :
    stDisabledTarget.TargetMap ≠ [] ∧
    (∀ p ∈ (disableUntargettedApps stDisabledTarget).Apps.getD [], p.2.Enabled = false) ∧
    getMap (disableUntargettedApps stDisabledTarget).Namespaces "ns1" =
      some { Enabled := true } :=
  ⟨by decide, by decide, by decide⟩

/-- C7 (amended): for every document that declares apps (a non-nil apps
map) and configures a non-empty cluster URI, `validate` fails when the
certificates stanza is empty, when basic (non-bearer) auth lacks caCrt or
caKey, and when bearer auth lacks caCrt. -/
theorem validate_cert_invariants (ext : Externals) (s : state)
    (hA : s.Apps ≠ none) (hURI : s.Settings.ClusterURI ≠ "") :
    (s.Certificates = [] → (validate ext s).isErr = true)
  ∧ (s.Settings.BearerToken = false →
      ((getMap s.Certificates "caCrt").isSome = false ∨
        (getMap s.Certificates "caKey").isSome = false) →
      (validate ext s).isErr = true)
  ∧ (s.Settings.BearerToken = true →
      (getMap s.Certificates "caCrt").isSome = false →
      (validate ext s).isErr = true) := by
  obtain ⟨apps, hA₂⟩ := Option.ne_none_iff_exists'.mp hA
  refine ⟨fun h => ?_, fun hb h => ?_, fun hb h => ?_⟩
  · exact validate_isErr_of_stages ext s apps hA₂
      (stagesErr_isSome_of_certs ext s apps (certsStage_isSome ext s hURI (Or.inl h)))
  · exact validate_isErr_of_stages ext s apps hA₂
      (stagesErr_isSome_of_certs ext s apps
        (certsStage_isSome ext s hURI (Or.inr (Or.inl ⟨hb, h⟩))))
  · exact validate_isErr_of_stages ext s apps hA₂
      (stagesErr_isSome_of_certs ext s apps
        (certsStage_isSome ext s hURI (Or.inr (Or.inr ⟨hb, h⟩))))

/-- C7 witness: a document with a declared app, cluster URI, basic auth and
no certificates fails validation. -/
theorem validate_cert_invariants_w :
    (stCerts.Apps ≠ none ∧ stCerts.Settings.ClusterURI ≠ "" ∧
      stCerts.Settings.BearerToken = false ∧ stCerts.Certificates = []) ∧
    (validate extDefault stCerts).isErr = true :=
  ⟨⟨by decide, by decide, rfl, rfl⟩,
    (validate_cert_invariants extDefault stCerts (by decide) (by decide)).1 rfl⟩

/-- C7 counterexample: the claim quantifies over every document, but a
document with a `nil` apps map, a non-empty cluster URI, basic auth and no
certificates does not fail — `validate` short-circuits the run as a
successful no-op before any certificate check. -/
theorem validate_nilApps_skips_cert_checks :
    stNilAppsURI.Settings.ClusterURI ≠ "" ∧
    stNilAppsURI.Settings.BearerToken = false ∧
    stNilAppsURI.Certificates = [] ∧
    validate extDefault stNilAppsURI = VResult.noop :=
  ⟨by decide, rfl, rfl, rfl⟩

/-- C4: `makeTargetMap` selects the union of the two criteria — every
release whose group label is among the requested groups, and every
explicitly requested name, ends in the TargetMap with value `true` — and on
the spec's example (groups g1; names app3; releases app1(g1), app2(g2),
app3(g3)) the selected set is exactly app1 and app3. -/
theorem makeTargetMap_union :
    (∀ (s : state) (groups targets : List String) (n : String),
        ((∃ r, (n, r) ∈ s.Apps.getD [] ∧ r.Group ∈ groups) ∨ n ∈ targets) →
        getMap (makeTargetMap s groups targets).TargetMap n = some true)
  ∧ (makeTargetMap stUnion ["g1"] ["app3"]).TargetMap = [("app1", true), ("app3", true)] := by
  constructor
  · rintro s groups targets n (⟨r, hmem, hg⟩ | hname)
    · exact addNameTargets_mono _ _ _
        (addGroupTargets_complete groups _ s.TargetMap n r hmem (by simpa using hg))
    · exact addNameTargets_complete _ _ _ hname
  · decide

/-- C4 witness: the union rule applied to the example document and the
group criterion. -/
theorem makeTargetMap_union_w :
    getMap (makeTargetMap stUnion ["g1"] ["app3"]).TargetMap "app1" = some true :=
  makeTargetMap_union.1 stUnion ["g1"] ["app3"] "app1"
    (Or.inl ⟨mkRelease "app1" "ns1" "g1" "chart1" "1.0" true, by decide, by decide⟩)

/-- C5: the probed pairs are exactly the distinct (chart, version) pairs of
the releases considered to run (disabled releases are never probed); every
probe result is collected, and the validator returns the single aggregate
error "chart validation failed" iff at least one probe result is non-empty,
succeeding iff every probe result is empty. -/
theorem validateReleaseCharts_spec (probe : String → String → String → String) (s : state) :
    (∀ c v, (c, v) ∈ chartVersionPairs s ↔
      ∃ n r, (n, r) ∈ s.Apps.getD [] ∧ r.isConsideredToRun = true ∧ r.Chart = c ∧ r.Version = v)
  ∧ (validateReleaseCharts probe s = some "chart validation failed" ↔
      ∃ p ∈ chartVersionPairs s, probe (concattedApps s p) p.1 p.2 ≠ "")
  ∧ (validateReleaseCharts probe s = none ↔
      ∀ p ∈ chartVersionPairs s, probe (concattedApps s p) p.1 p.2 = "") := by
  refine ⟨?_, ?_, ?_⟩
  · intro c v
    unfold chartVersionPairs eligibleApps
    rw [List.mem_dedup, List.mem_map]
    constructor
    · rintro ⟨⟨n, r⟩, hmem, heq⟩
      rw [List.mem_filter] at hmem
      simp only [Prod.mk.injEq] at heq
      exact ⟨n, r, hmem.1, hmem.2, heq.1, heq.2⟩
    · rintro ⟨n, r, h1, h2, hc, hv⟩
      exact ⟨(n, r), List.mem_filter.mpr ⟨h1, h2⟩, by simp [hc, hv]⟩
  · cases hany : ((chartVersionPairs s).map (fun p => probe (concattedApps s p) p.1 p.2)).any
        (fun e => e ≠ "") with
    | true =>
      have hv : validateReleaseCharts probe s = some "chart validation failed" := by
        unfold validateReleaseCharts
        simp only [hany]
        simp
      rw [hv]
      constructor
      · intro _
        obtain ⟨e, hemem, hene⟩ := List.any_eq_true.mp hany
        obtain ⟨p, hp, rfl⟩ := List.mem_map.mp hemem
        exact ⟨p, hp, by simpa using hene⟩
      · intro _
        rfl
    | false =>
      have hv : validateReleaseCharts probe s = none := by
        unfold validateReleaseCharts
        simp only [hany]
        simp
      rw [hv]
      constructor
      · intro hcontr
        exact Option.noConfusion hcontr
      · rintro ⟨p, hp, hne⟩
        have hx : ((chartVersionPairs s).map
            (fun p => probe (concattedApps s p) p.1 p.2)).any (fun e => e ≠ "") = true :=
          List.any_eq_true.mpr ⟨_, List.mem_map.mpr ⟨p, hp, rfl⟩, by simpa using hne⟩
        rw [hany] at hx
        exact absurd hx (by decide)
  · cases hany : ((chartVersionPairs s).map (fun p => probe (concattedApps s p) p.1 p.2)).any
        (fun e => e ≠ "") with
    | true =>
      have hv : validateReleaseCharts probe s = some "chart validation failed" := by
        unfold validateReleaseCharts
        simp only [hany]
        simp
      rw [hv]
      constructor
      · intro hcontr
        exact Option.noConfusion hcontr
      · intro hall
        exfalso
        obtain ⟨e, hemem, hene⟩ := List.any_eq_true.mp hany
        obtain ⟨p, hp, rfl⟩ := List.mem_map.mp hemem
        exact (by simpa using hene : probe (concattedApps s p) p.1 p.2 ≠ "") (hall p hp)
    | false =>
      have hv : validateReleaseCharts probe s = none := by
        unfold validateReleaseCharts
        simp only [hany]
        simp
      rw [hv]
      constructor
      · intro _ p hp
        by_contra hne
        have hx : ((chartVersionPairs s).map
            (fun q => probe (concattedApps s q) q.1 q.2)).any (fun e => e ≠ "") = true :=
          List.any_eq_true.mpr ⟨_, List.mem_map.mpr ⟨p, hp, rfl⟩, by simpa using hne⟩
        rw [hany] at hx
        exact absurd hx (by decide)
      · intro _
        rfl

/-- C5 witness: on the concrete three-release document the badchart probe
result is non-empty, so the validator reports the aggregate failure. -/
theorem validateReleaseCharts_spec_w :
    validateReleaseCharts probeBad stCharts = some "chart validation failed" :=
  (validateReleaseCharts_spec probeBad stCharts).2.1.mpr
    ⟨("badchart", "2.0"), by decide, by decide⟩

/-- C10: every explicitly requested name is stored in the TargetMap with
value `true` even when no release by that name exists; starting from an
empty TargetMap, `makeTargetMap` stores no `false` entry; and a non-empty
names selector that matches no existing release (with no group match
either) produces a non-empty TargetMap, after which
`disableUntargettedApps` disables every release and every namespace. -/
theorem makeTargetMap_ghost_names :
    (∀ (s : state) (groups targets : List String) (n : String), n ∈ targets →
        getMap (makeTargetMap s groups targets).TargetMap n = some true)
  ∧ (∀ (s : state) (groups targets : List String) (n : String), s.TargetMap = [] →
        getMap (makeTargetMap s groups targets).TargetMap n ≠ some false)
  ∧ (∀ (s : state) (groups targets : List String),
        s.TargetMap = [] → targets ≠ [] →
        (∀ p ∈ s.Apps.getD [], groups.contains p.2.Group = false) →
        (∀ t ∈ targets, ∀ p ∈ s.Apps.getD [], p.1 ≠ t) →
        ((disableUntargettedApps (makeTargetMap s groups targets)).TargetMap ≠ [] ∧
          (∀ p ∈ (disableUntargettedApps (makeTargetMap s groups targets)).Apps.getD [],
            p.2.Enabled = false) ∧
          (∀ q ∈ (disableUntargettedApps (makeTargetMap s groups targets)).Namespaces,
            q.2.Enabled = false))) := by
  refine ⟨?_, ?_, ?_⟩
  · intro s groups targets n hname
    exact addNameTargets_complete _ _ _ hname
  · intro s groups targets n h
    show getMap (addNameTargets targets (addGroupTargets groups (s.Apps.getD []) s.TargetMap)) n ≠
      some false
    rw [h]
    exact addNameTargets_notFalse _ _ _
      (addGroupTargets_notFalse _ _ _ _ (by simp [getMap]))
  · intro s groups targets h hne hga hta
    obtain ⟨t, ts, rfl⟩ := List.exists_cons_of_ne_nil hne
    have htmeq : (makeTargetMap s groups (t :: ts)).TargetMap =
        addNameTargets (t :: ts) (addGroupTargets groups (s.Apps.getD []) []) := by
      show addNameTargets (t :: ts) (addGroupTargets groups (s.Apps.getD []) s.TargetMap) = _
      rw [h]
    have hkey : ∀ q ∈ s.Apps.getD [],
        getMap (makeTargetMap s groups (t :: ts)).TargetMap q.1 = none := by
      intro q hq
      rw [htmeq]
      rw [addNameTargets_untouched _ _ _ (fun hmem => (hta q.1 hmem q hq) rfl)]
      rw [addGroupTargets_untouched _ _ _ _ (fun r hr => hga (q.1, r) hr)]
      simp [getMap]
    have htmne : (makeTargetMap s groups (t :: ts)).TargetMap ≠ [] := by
      intro hempty
      have htrue := addNameTargets_complete (t :: ts)
        (addGroupTargets groups (s.Apps.getD []) []) t (List.mem_cons_self _ _)
      rw [htmeq] at hempty
      rw [hempty] at htrue
      simp [getMap] at htrue
    have htm2 : (disableUntargettedApps (makeTargetMap s groups (t :: ts))).TargetMap =
        (makeTargetMap s groups (t :: ts)).TargetMap := by
      unfold disableUntargettedApps
      split <;> rfl
    have happs : (makeTargetMap s groups (t :: ts)).Apps = s.Apps := rfl
    refine ⟨by rw [htm2]; exact htmne, ?_, ?_⟩
    · intro p hp
      simp only [disableUntargettedApps, if_neg htmne] at hp
      rw [happs] at hp
      cases hA : s.Apps with
      | none => rw [hA] at hp; cases hp
      | some l =>
        rw [hA] at hp
        simp only [Option.map_some', Option.getD_some] at hp
        rw [disableStep_fst] at hp
        obtain ⟨q, hq, rfl⟩ := List.mem_map.mp hp
        have hqmem : q ∈ s.Apps.getD [] := by rw [hA]; exact hq
        simp [targetedIn_none _ _ (hkey q hqmem), release.Disable]
    · intro q hq
      simp only [disableUntargettedApps, if_neg htmne] at hq
      have hnseq : (makeTargetMap s groups (t :: ts)).Namespaces = s.Namespaces := rfl
      rw [hnseq] at hq
      simp only [disableStep_snd_contains] at hq
      have hanyf : ∀ x, ((makeTargetMap s groups (t :: ts)).Apps.getD []).any
          (fun r => targetedIn (makeTargetMap s groups (t :: ts)).TargetMap r.1 &&
            r.2.Namespace == x) = false := by
        intro x
        rw [List.any_eq_false]
        intro r hr
        have hrmem : r ∈ s.Apps.getD [] := hr
        simp [targetedIn_none _ _ (hkey r hrmem)]
      simp only [hanyf] at hq
      simp only [Bool.false_eq_true, if_false] at hq
      obtain ⟨kv, hkv, rfl⟩ := List.mem_map.mp hq
      simp [Namespace.Disable]

/-- C10 witness: targeting only the non-existent name "ghost" on a
one-release document disables the release and its namespace while the
TargetMap stays non-empty. -/
theorem makeTargetMap_ghost_names_w :
    (disableUntargettedApps (makeTargetMap stGhost [] ["ghost"])).TargetMap ≠ [] ∧
    (∀ p ∈ (disableUntargettedApps (makeTargetMap stGhost [] ["ghost"])).Apps.getD [],
      p.2.Enabled = false) ∧
    (∀ q ∈ (disableUntargettedApps (makeTargetMap stGhost [] ["ghost"])).Namespaces,
      q.2.Enabled = false) :=
  makeTargetMap_ghost_names.2.2 stGhost [] ["ghost"] rfl (by decide) (by decide) (by decide)
